import Mathlib

/-!
Verification of the Algofi AMM core (constant-product pool, stable pool,
flash loans, oracle accumulators) against its natural-language specification.
The definitions below are a shallow embedding of the PyTeal contract code in
src/algofi/amm: TEAL uint64 arithmetic panics (on overflow, underflow and
division by zero) are modelled with Option, where none means the enclosing
transaction group is rejected, and byte-slice (arbitrary precision) TEAL
arithmetic is modelled with plain Nat arithmetic.
-/

namespace AlgofiAMM

/-- 2 ^ 64 - 1, the TEAL MAX_INT_U64 constant. -/
def U64MAX : Nat := 18446744073709551615

/-- FIXED_6_SCALE_FACTOR. -/
def FIXED6 : Nat := 1000000

/-- FIXED_9_SCALE_FACTOR. -/
def FIXED9 : Nat := 1000000000

/-- MIN_POOL_BALANCE. -/
def MIN_POOL_BALANCE : Nat := 1000

/-- MAX_ASSET_RATIO. -/
def MAX_ASSET_RATIO : Nat := 1000000000

/-- MAX_AMPLIFICATION_FACTOR. -/
def MAX_AMPLIFICATION_FACTOR : Nat := 400000000

/-- TEAL uint64 addition: panics when the sum exceeds U64MAX. -/
def u64add (a b : Nat) : Option Nat :=
  if a + b ≤ U64MAX then some (a + b) else none

/-- TEAL uint64 subtraction: panics on underflow. -/
def u64sub (a b : Nat) : Option Nat :=
  if b ≤ a then some (a - b) else none

/-- TEAL uint64 multiplication: panics when the product exceeds U64MAX. -/
def u64mul (a b : Nat) : Option Nat :=
  if a * b ≤ U64MAX then some (a * b) else none

/-- TEAL uint64 division: panics on division by zero. -/
def u64div (a b : Nat) : Option Nat :=
  if b = 0 then none else some (a / b)

/-- PyTeal WideRatio with two numerator factors and one denominator factor:
a 128-bit wide multiply and divide that panics if the denominator is zero or
the quotient exceeds U64MAX. -/
def wideRatio (a b c : Nat) : Option Nat :=
  if c = 0 then none
  else if a * b / c ≤ U64MAX then some (a * b / c) else none

/-- TEAL Assert: evaluates a condition and panics when it does not hold. -/
def tealAssert (p : Prop) [Decidable p] : Option Unit :=
  if p then some () else none

/-- Bit-by-bit integer square root with explicit fuel, modelling the AVM
sqrt opcode (floor square root) in a form the kernel can evaluate. -/
def isqrtGo (n : Nat) : Nat → Nat → Nat
  | 0, r => r
  | f + 1, r =>
    if (r + 2 ^ f) * (r + 2 ^ f) ≤ n then isqrtGo n f (r + 2 ^ f)
    else isqrtGo n f r

/-- The TEAL Sqrt opcode: floor integer square root of a uint64. -/
def tealSqrt (n : Nat) : Nat := isqrtGo n 64 0

/-- calculate_integer_wrapped_value from src/algofi/amm/subroutines.py:
the wrapping accumulator update used for all oracle counters
(remaining_integer_space inlined). -/
def calculate_integer_wrapped_value (current_value addend : Nat) : Nat :=
  if addend > U64MAX - current_value then
    addend - (U64MAX - current_value) - 1
  else
    current_value + addend

/-- Global mutable state of one AMM pool (src/algofi/amm/pool.py global
vars, restricted to the fields the modelled operations read or write). -/
structure PoolState where
  asset1_id : Nat
  asset2_id : Nat
  balance_1 : Nat
  balance_2 : Nat
  lp_circulation : Nat
  asset1_reserve : Nat
  asset2_reserve : Nat
  reserve_factor : Nat
  flash_loan_fee : Nat
  max_flash_loan_ratio : Nat
  swap_fee_pct_scaled : Nat
  latest_time : Nat
  cumsum_time_weighted_asset1_to_asset2_price : Nat
  cumsum_time_weighted_asset2_to_asset1_price : Nat
  cumsum_volume_asset1 : Nat
  cumsum_volume_asset2 : Nat
  cumsum_volume_weighted_asset1_to_asset2_price : Nat
  cumsum_volume_weighted_asset2_to_asset1_price : Nat
  cumsum_fees_asset1 : Nat
  cumsum_fees_asset2 : Nat
  deriving Repr, DecidableEq

/-- validate_asset_ratio from pool.py: balance floor and 1e9 ratio bounds,
asserted in source order. -/
def validate_asset_ratio (s : PoolState) : Option Unit := do
  tealAssert (s.balance_1 ≥ MIN_POOL_BALANCE)
  tealAssert (s.balance_2 ≥ MIN_POOL_BALANCE)
  tealAssert (s.balance_1 / s.balance_2 < MAX_ASSET_RATIO)
  tealAssert (s.balance_2 / s.balance_1 < MAX_ASSET_RATIO)

/-- The conjunction of bounds checked by validate_asset_ratio. -/
def ratio_bounds (s : PoolState) : Prop :=
  s.balance_1 ≥ MIN_POOL_BALANCE ∧ s.balance_2 ≥ MIN_POOL_BALANCE ∧
    s.balance_1 / s.balance_2 < MAX_ASSET_RATIO ∧
    s.balance_2 / s.balance_1 < MAX_ASSET_RATIO

/-- update_reserves from pool.py: moves the reserve-factor fraction of a fee
amount from the balance of the given asset to its reserve and updates the
wrapping cumulative-fee accumulator with the remainder. -/
def update_reserves (s : PoolState) (fee_is_asset1 : Bool) (amount : Nat) :
    Option PoolState := do
  let fee_to_reserve ← wideRatio amount s.reserve_factor FIXED6
  let fees_less_reserve ← u64sub amount fee_to_reserve
  if fee_is_asset1 then do
    let b1 ← u64sub s.balance_1 fee_to_reserve
    let r1 ← u64add s.asset1_reserve fee_to_reserve
    some { s with
      balance_1 := b1
      asset1_reserve := r1
      cumsum_fees_asset1 :=
        calculate_integer_wrapped_value s.cumsum_fees_asset1 fees_less_reserve }
  else do
    let b2 ← u64sub s.balance_2 fee_to_reserve
    let r2 ← u64add s.asset2_reserve fee_to_reserve
    some { s with
      balance_2 := b2
      asset2_reserve := r2
      cumsum_fees_asset2 :=
        calculate_integer_wrapped_value s.cumsum_fees_asset2 fees_less_reserve }

/-- adjust_pool_input_amounts from pool.py: empty pools keep the provided
amounts; non-empty pools clip the larger side to the current pool ratio
(within the caller slippage tolerance) and report the residuals. Returns
(adjusted1, adjusted2, residual1, residual2). -/
def adjust_pool_input_amounts (s : PoolState) (a1 a2 slippage : Nat)
    (pool_is_empty : Bool) : Option (Nat × Nat × Nat × Nat) :=
  if pool_is_empty then some (a1, a2, 0, 0)
  else do
    let pool_asset_ratio ← wideRatio s.balance_1 FIXED9 s.balance_2
    let incoming_asset_ratio ← wideRatio a1 FIXED9 a2
    let ratio_slippage ← wideRatio pool_asset_ratio FIXED6 incoming_asset_ratio
    let lo ← u64sub FIXED6 slippage
    let hi ← u64add FIXED6 slippage
    tealAssert (ratio_slippage > lo ∧ ratio_slippage < hi)
    if incoming_asset_ratio > pool_asset_ratio then do
      let w ← wideRatio a2 s.balance_1 s.balance_2
      let adj1 ← u64add w 1
      let res1 ← u64sub a1 adj1
      some (adj1, a2, res1, 0)
    else if incoming_asset_ratio < pool_asset_ratio then do
      let w ← wideRatio a1 s.balance_2 s.balance_1
      let adj2 ← u64add w 1
      let res2 ← u64sub a2 adj2
      some (a1, adj2, 0, res2)
    else
      some (a1, a2, 0, 0)

/-- calculate_lp_issuance from pool.py (constant-product pool): first deposit
issues an integer square root of the product (falling back to a product of
square roots when the 64-bit product would overflow); later deposits issue
the minimum of the two ratio-derived amounts. -/
def calculate_lp_issuance_cp (s : PoolState) (adj1 adj2 : Nat)
    (pool_is_empty : Bool) : Option Nat :=
  if pool_is_empty then
    if adj1 = 0 then none
    else if U64MAX / adj1 > adj2 then do
      let p ← u64mul adj1 adj2
      some (tealSqrt p)
    else
      u64mul (tealSqrt adj1) (tealSqrt adj2)
  else do
    let lp_issued_from_asset1 ← wideRatio adj1 s.lp_circulation s.balance_1
    let lp_issued_from_asset2 ← wideRatio adj2 s.lp_circulation s.balance_2
    if lp_issued_from_asset1 > lp_issued_from_asset2 then
      some lp_issued_from_asset2
    else
      some lp_issued_from_asset1

/-- on_pool from pool.py, parameterised by the LP-issuance rule so the stable
pool override can reuse the shared deposit flow, exactly as the source class
hierarchy does. The transaction-group shape checks on the two incoming asset
transfers are reflected as the positivity guards on a1 and a2 (their amounts).
Returns (new state, lp issued, residual1, residual2). -/
def onPoolWith (calcIssuance : PoolState → Nat → Nat → Bool → Option Nat)
    (s : PoolState) (a1 a2 slippage now : Nat) :
    Option (PoolState × Nat × Nat × Nat) := do
  tealAssert (a1 > 0)
  tealAssert (a2 > 0)
  let total ← u64add s.balance_1 s.balance_2
  let pool_is_empty := total == 0
  let (adj1, adj2, res1, res2) ←
    adjust_pool_input_amounts s a1 a2 slippage pool_is_empty
  let lp_issued ← calcIssuance s adj1 adj2 pool_is_empty
  tealAssert (lp_issued > 0)
  let b1 ← u64add s.balance_1 adj1
  let b2 ← u64add s.balance_2 adj2
  let lc ← u64add s.lp_circulation lp_issued
  let s1 := { s with
    latest_time := if pool_is_empty then now else s.latest_time
    balance_1 := b1
    balance_2 := b2
    lp_circulation := lc }
  validate_asset_ratio s1
  some (s1, lp_issued, res1, res2)

/-- on_pool for the constant-product pool. -/
def on_pool (s : PoolState) (a1 a2 slippage now : Nat) :
    Option (PoolState × Nat × Nat × Nat) :=
  onPoolWith calculate_lp_issuance_cp s a1 a2 slippage now

/-- on_burn_asset1_out from pool.py: burns LP for asset1. When the burned
amount equals the whole outstanding circulation the full remaining balance_1
is sent, otherwise the ratio-derived amount. Returns the new state and the
asset1 amount sent. LP circulation is only decremented by the paired
on_burn_asset2_out call. -/
def on_burn_asset1_out (s : PoolState) (lp_asset_amount : Nat) :
    Option (PoolState × Nat) := do
  tealAssert (lp_asset_amount > 0)
  let amt ←
    if lp_asset_amount = s.lp_circulation then some s.balance_1
    else wideRatio lp_asset_amount s.balance_1 s.lp_circulation
  tealAssert (amt > 0)
  tealAssert (amt ≤ s.balance_1)
  let b1 ← u64sub s.balance_1 amt
  some ({ s with balance_1 := b1 }, amt)

/-- on_burn_asset2_out from pool.py: burns LP for asset2 and decrements the
LP circulation. Returns the new state and the asset2 amount sent. -/
def on_burn_asset2_out (s : PoolState) (lp_asset_amount : Nat) :
    Option (PoolState × Nat) := do
  tealAssert (lp_asset_amount > 0)
  let amt ←
    if lp_asset_amount = s.lp_circulation then some s.balance_2
    else wideRatio lp_asset_amount s.balance_2 s.lp_circulation
  tealAssert (amt > 0)
  tealAssert (amt ≤ s.balance_2)
  let b2 ← u64sub s.balance_2 amt
  let lc ← u64sub s.lp_circulation lp_asset_amount
  some ({ s with balance_2 := b2, lp_circulation := lc }, amt)

/-- swap_exact_asset1_for from pool.py (constant-product quote). -/
def swap_exact_asset1_for (s : PoolState) (asset1_amount : Nat) : Option Nat := do
  let d ← u64add s.balance_1 asset1_amount
  wideRatio s.balance_2 asset1_amount d

/-- swap_exact_asset2_for from pool.py (constant-product quote). -/
def swap_exact_asset2_for (s : PoolState) (asset2_amount : Nat) : Option Nat := do
  let d ← u64add s.balance_2 asset2_amount
  wideRatio s.balance_1 asset2_amount d

/-- swap_for_exact_asset1_amount from pool.py: required asset2 input for an
exact asset1 output, biased up by one unit. -/
def swap_for_exact_asset1_amount (s : PoolState) (asset1_amount : Nat) :
    Option Nat := do
  let d ← u64sub s.balance_1 asset1_amount
  let w ← wideRatio s.balance_2 asset1_amount d
  u64add w 1

/-- swap_for_exact_asset2_amount from pool.py: required asset1 input for an
exact asset2 output, biased up by one unit. -/
def swap_for_exact_asset2_amount (s : PoolState) (asset2_amount : Nat) :
    Option Nat := do
  let d ← u64sub s.balance_2 asset2_amount
  let w ← wideRatio s.balance_1 asset2_amount d
  u64add w 1

/-- save_latest_cumsum_time_weighted_price from on_swap: accumulates the
pre-trade prices weighted by elapsed time, silently skipping an accumulator
whose weighted term would overflow 64 bits. Returns the updated state and the
stored pre-trade prices (asset1-to-asset2, asset2-to-asset1). -/
def save_latest_cumsum_time_weighted_price (s : PoolState) (now : Nat) :
    Option (PoolState × Nat × Nat) := do
  let time_delta ← u64sub now s.latest_time
  let asset1_to_asset2_price ← wideRatio s.balance_2 FIXED9 s.balance_1
  let asset2_to_asset1_price ← wideRatio s.balance_1 FIXED9 s.balance_2
  let q12 ← u64div U64MAX asset1_to_asset2_price
  let c12 :=
    if q12 > time_delta then
      calculate_integer_wrapped_value
        s.cumsum_time_weighted_asset1_to_asset2_price
        (asset1_to_asset2_price * time_delta)
    else s.cumsum_time_weighted_asset1_to_asset2_price
  let q21 ← u64div U64MAX asset2_to_asset1_price
  let c21 :=
    if q21 > time_delta then
      calculate_integer_wrapped_value
        s.cumsum_time_weighted_asset2_to_asset1_price
        (asset2_to_asset1_price * time_delta)
    else s.cumsum_time_weighted_asset2_to_asset1_price
  some ({ s with
      latest_time := now
      cumsum_time_weighted_asset1_to_asset2_price := c12
      cumsum_time_weighted_asset2_to_asset1_price := c21 },
    asset1_to_asset2_price, asset2_to_asset1_price)

/-- save_latest_cumsum_volume from on_swap: accumulates traded volumes and
volume-weighted pre-trade prices, with the same overflow-skip policy on the
weighted accumulators. -/
def save_latest_cumsum_volume (s : PoolState)
    (asset1_to_asset2_price asset2_to_asset1_price : Nat)
    (asset1_volume asset2_volume : Nat) : Option PoolState := do
  let v1 := calculate_integer_wrapped_value s.cumsum_volume_asset1 asset1_volume
  let v2 := calculate_integer_wrapped_value s.cumsum_volume_asset2 asset2_volume
  let q2 ← u64div U64MAX asset2_volume
  let vw12 :=
    if q2 > asset1_to_asset2_price then
      calculate_integer_wrapped_value
        s.cumsum_volume_weighted_asset1_to_asset2_price
        (asset2_volume * asset1_to_asset2_price)
    else s.cumsum_volume_weighted_asset1_to_asset2_price
  let q1 ← u64div U64MAX asset1_volume
  let vw21 :=
    if q1 > asset2_to_asset1_price then
      calculate_integer_wrapped_value
        s.cumsum_volume_weighted_asset2_to_asset1_price
        (asset1_volume * asset2_to_asset1_price)
    else s.cumsum_volume_weighted_asset2_to_asset1_price
  some { s with
    cumsum_volume_asset1 := v1
    cumsum_volume_asset2 := v2
    cumsum_volume_weighted_asset1_to_asset2_price := vw12
    cumsum_volume_weighted_asset2_to_asset1_price := vw21 }

/-- handle_swap_exact_for from on_swap: fee on the input side (floor of the
scaled product, plus one), constant-product output on the input net of fee.
Returns (state, output sent, swap fee). -/
def handle_swap_exact_for (s : PoolState) (swap_input_is_asset1 : Bool)
    (swap_input_amount min_amount_to_swap_for : Nat)
    (asset1_to_asset2_price asset2_to_asset1_price : Nat) :
    Option (PoolState × Nat × Nat) := do
  let w ← wideRatio swap_input_amount s.swap_fee_pct_scaled FIXED6
  let swap_fee ← u64add w 1
  let swap_input_amount_less_fees ← u64sub swap_input_amount swap_fee
  tealAssert (swap_input_amount_less_fees > 0)
  if swap_input_is_asset1 then do
    let out ← swap_exact_asset1_for s swap_input_amount_less_fees
    let b1 ← u64add s.balance_1 swap_input_amount
    let b2 ← u64sub s.balance_2 out
    let s1 := { s with balance_1 := b1, balance_2 := b2 }
    let s2 ← save_latest_cumsum_volume s1 asset1_to_asset2_price
      asset2_to_asset1_price swap_input_amount_less_fees out
    tealAssert (out > 0)
    tealAssert (out ≥ min_amount_to_swap_for)
    some (s2, out, swap_fee)
  else do
    let out ← swap_exact_asset2_for s swap_input_amount_less_fees
    let b1 ← u64sub s.balance_1 out
    let b2 ← u64add s.balance_2 swap_input_amount
    let s1 := { s with balance_1 := b1, balance_2 := b2 }
    let s2 ← save_latest_cumsum_volume s1 asset1_to_asset2_price
      asset2_to_asset1_price out swap_input_amount_less_fees
    tealAssert (out > 0)
    tealAssert (out ≥ min_amount_to_swap_for)
    some (s2, out, swap_fee)

/-- handle_swap_for_exact from on_swap: fixed desired output, gross-up fee on
the required input, residual refunded. Returns (state, output sent, swap fee,
residual). -/
def handle_swap_for_exact (s : PoolState) (swap_input_is_asset1 : Bool)
    (swap_input_amount exact_amount_to_swap_for : Nat)
    (asset1_to_asset2_price asset2_to_asset1_price : Nat) :
    Option (PoolState × Nat × Nat × Nat) := do
  tealAssert (exact_amount_to_swap_for > 0)
  let required_swap_input_amount ←
    if swap_input_is_asset1 then
      swap_for_exact_asset2_amount s exact_amount_to_swap_for
    else
      swap_for_exact_asset1_amount s exact_amount_to_swap_for
  tealAssert (required_swap_input_amount > 0)
  let d ← u64sub FIXED6 s.swap_fee_pct_scaled
  let w ← wideRatio required_swap_input_amount FIXED6 d
  let w1 ← u64add w 1
  let swap_fee ← u64sub w1 required_swap_input_amount
  let required_swap_input_amount_plus_fees ←
    u64add required_swap_input_amount swap_fee
  tealAssert (swap_input_amount ≥ required_swap_input_amount_plus_fees)
  if swap_input_is_asset1 then do
    let b1 ← u64add s.balance_1 required_swap_input_amount_plus_fees
    let b2 ← u64sub s.balance_2 exact_amount_to_swap_for
    let s1 := { s with balance_1 := b1, balance_2 := b2 }
    let s2 ← save_latest_cumsum_volume s1 asset1_to_asset2_price
      asset2_to_asset1_price required_swap_input_amount exact_amount_to_swap_for
    let residual ← u64sub swap_input_amount required_swap_input_amount_plus_fees
    some (s2, exact_amount_to_swap_for, swap_fee, residual)
  else do
    let b1 ← u64sub s.balance_1 exact_amount_to_swap_for
    let b2 ← u64add s.balance_2 required_swap_input_amount_plus_fees
    let s1 := { s with balance_1 := b1, balance_2 := b2 }
    let s2 ← save_latest_cumsum_volume s1 asset1_to_asset2_price
      asset2_to_asset1_price exact_amount_to_swap_for required_swap_input_amount
    let residual ← u64sub swap_input_amount required_swap_input_amount_plus_fees
    some (s2, exact_amount_to_swap_for, swap_fee, residual)

/-- on_swap from pool.py (constant-product pool): oracle accumulator update
on pre-trade state, lazy reserve-factor refresh from the manager (mrf is the
manager value, its presence check is reflected by passing it), then the
selected swap mode, reserve skim of the fee, and the post-trade ratio
validation. Returns the new state and the amount sent to the trader. -/
def on_swap (s : PoolState) (mrf : Nat) (swap_input_is_asset1 : Bool)
    (swap_input_amount : Nat) (is_swap_for_exact : Bool) (arg1 now : Nat) :
    Option (PoolState × Nat) := do
  let (s1, asset1_to_asset2_price, asset2_to_asset1_price) ←
    save_latest_cumsum_time_weighted_price s now
  tealAssert (mrf ≤ FIXED6)
  let s2 := { s1 with reserve_factor := mrf }
  tealAssert (swap_input_amount > 0)
  if is_swap_for_exact then do
    let (s3, out, swap_fee, _residual) ← handle_swap_for_exact s2
      swap_input_is_asset1 swap_input_amount arg1
      asset1_to_asset2_price asset2_to_asset1_price
    let s4 ← update_reserves s3 swap_input_is_asset1 swap_fee
    validate_asset_ratio s4
    some (s4, out)
  else do
    let (s3, out, swap_fee) ← handle_swap_exact_for s2
      swap_input_is_asset1 swap_input_amount arg1
      asset1_to_asset2_price asset2_to_asset1_price
    let s4 ← update_reserves s3 swap_input_is_asset1 swap_fee
    validate_asset_ratio s4
    some (s4, out)

/-- Transaction type enumeration (the TEAL type_enum values the modelled
checks distinguish). -/
inductive TxnTypeEnum where
  | payment
  | assetTransfer
  | applicationCall
  | other
  deriving Repr, DecidableEq

/-- The fields of a sibling transaction that the modelled group-shape checks
read. Receiver fields record whether the receiver is the pool escrow. -/
structure TxnInfo where
  type_enum : TxnTypeEnum
  receiver_is_pool : Bool
  amount : Nat
  xfer_asset : Nat
  asset_receiver_is_pool : Bool
  asset_amount : Nat
  deriving Repr, DecidableEq

/-- verify_txn_is_sending_algos_to_pool from pool.py. -/
def verify_txn_is_sending_algos_to_pool (t : TxnInfo) : Option Unit := do
  tealAssert (t.type_enum = TxnTypeEnum.payment)
  tealAssert (t.receiver_is_pool = true)
  tealAssert (t.amount > 0)

/-- verify_txn_is_sending_asa_to_pool from pool.py. -/
def verify_txn_is_sending_asa_to_pool (t : TxnInfo) (asset_id : Nat) :
    Option Unit := do
  tealAssert (t.type_enum = TxnTypeEnum.assetTransfer)
  tealAssert (t.xfer_asset = asset_id)
  tealAssert (t.asset_receiver_is_pool = true)
  tealAssert (t.asset_amount > 0)

/-- validate_flash_loan_txn from on_flash_loan: position, asset, amount and
max-ratio checks on the flash-loan application call. -/
def validate_flash_loan_txn (s1 : PoolState)
    (flash_loan_asset_id flash_loan_amount group_index : Nat) :
    Option Unit := do
  tealAssert (group_index = 0)
  tealAssert (flash_loan_asset_id = s1.asset1_id ∨
    flash_loan_asset_id = s1.asset2_id)
  tealAssert (0 < flash_loan_amount)
  if flash_loan_asset_id == s1.asset1_id then do
    let max_asset1_flash_loan ←
      wideRatio s1.balance_1 s1.max_flash_loan_ratio FIXED6
    tealAssert (flash_loan_amount ≤ max_asset1_flash_loan)
  else do
    let max_asset2_flash_loan ←
      wideRatio s1.balance_2 s1.max_flash_loan_ratio FIXED6
    tealAssert (flash_loan_amount ≤ max_asset2_flash_loan)

/-- validate_flash_loan_repay_txn from on_flash_loan: the repayment txn must
send exactly amount plus fee of the loaned asset (a payment when the asset is
the native coin, an asset transfer otherwise) to the pool. -/
def validate_flash_loan_repay_txn
    (flash_loan_asset_id flash_loan_amount flash_loan_fee_amount : Nat)
    (repay : TxnInfo) : Option Unit := do
  let repay_total ← u64add flash_loan_amount flash_loan_fee_amount
  if flash_loan_asset_id = 1 then do
    verify_txn_is_sending_algos_to_pool repay
    tealAssert (repay.amount = repay_total)
  else do
    verify_txn_is_sending_asa_to_pool repay flash_loan_asset_id
    tealAssert (repay.asset_amount = repay_total)

/-- update_balances from on_flash_loan: credit the fee to the loaned side and
skim the reserve fraction via update_reserves. -/
def flash_loan_update_balances (s1 : PoolState) (flash_loan_is_asset1 : Bool)
    (flash_loan_fee_amount : Nat) : Option PoolState := do
  let s2 ←
    if flash_loan_is_asset1 then do
      let b1 ← u64add s1.balance_1 flash_loan_fee_amount
      some { s1 with balance_1 := b1 }
    else do
      let b2 ← u64add s1.balance_2 flash_loan_fee_amount
      some { s1 with balance_2 := b2 }
  update_reserves s2 flash_loan_is_asset1 flash_loan_fee_amount

/-- on_flash_loan from pool.py. Manager parameters (mrf, mflf, mmflr) are the
lazily pulled reserve factor, flash-loan fee and max flash-loan ratio;
group_index is the group position of the flash-loan application call and
group is the whole atomic transaction group, whose final transaction must
repay the loan plus fee. Returns the new state and the charged fee. -/
def on_flash_loan (s : PoolState) (mrf mflf mmflr : Nat)
    (flash_loan_asset_id flash_loan_amount : Nat)
    (group_index : Nat) (group : List TxnInfo) : Option (PoolState × Nat) := do
  tealAssert (mrf ≤ FIXED6)
  tealAssert (mflf ≤ FIXED6)
  tealAssert (mmflr ≤ FIXED6)
  let s1 := { s with
    reserve_factor := mrf
    flash_loan_fee := mflf
    max_flash_loan_ratio := mmflr }
  let w ← wideRatio flash_loan_amount s1.flash_loan_fee FIXED6
  let flash_loan_fee_amount ← u64add w 1
  validate_flash_loan_txn s1 flash_loan_asset_id flash_loan_amount group_index
  match group[group.length - 1]? with
  | none => none
  | some repay => do
    validate_flash_loan_repay_txn flash_loan_asset_id flash_loan_amount
      flash_loan_fee_amount repay
    let s3 ← flash_loan_update_balances s1
      (flash_loan_asset_id == s1.asset1_id) flash_loan_fee_amount
    validate_asset_ratio s3
    some (s3, flash_loan_fee_amount)

/-- One round of the Newton-like update inside compute_D from
src/algofi/amm/stable_swap_math.py. The byte-slice (arbitrary precision)
operations are plain Nat arithmetic; the uint64 subexpressions Ann = A * 4
and Ann - FIXED6 keep their overflow and underflow panics, the quotient
denominators keep their division-by-zero panics. -/
def computeD_step (x y A d : Nat) : Option Nat := do
  let Ann ← u64mul A 4
  let AnnS := Ann * (x + y) / FIXED6
  let D_prod_denom := 4 * (y * x)
  let D_prod ←
    if D_prod_denom = 0 then none else some (d * (d * d) / D_prod_denom)
  let AnnLessScale ← u64sub Ann FIXED6
  let num := (AnnS + D_prod * 2) * d
  let den := AnnLessScale * d / FIXED6 + D_prod * 3
  if den = 0 then none else some (num / den)

/-- The convergence test of the compute_D loop: successive estimates differ
by at most one (checked on whichever side is larger). -/
def tolOK (d d1 : Nat) : Bool :=
  if d1 > d then d1 - d ≤ 1 else d - d1 ≤ 1

/-- The bounded iteration of compute_D: up to fuel rounds, returning the new
estimate (converted back to uint64, panicking above U64MAX) as soon as the
convergence test passes, and failing when the fuel is exhausted (the
Assert(i < 255) at the end of the source loop). -/
def computeD_loop (x y A : Nat) : Nat → Nat → Option Nat
  | 0, _ => none
  | fuel + 1, d =>
    match computeD_step x y A d with
    | none => none
    | some d1 =>
      if tolOK d d1 then (if d1 ≤ U64MAX then some d1 else none)
      else computeD_loop x y A fuel d1

/-- compute_D from src/algofi/amm/stable_swap_math.py: returns 0 when the
balance sum is zero, otherwise iterates from the initial estimate x + y for
at most 255 rounds. The uint64 sum x + y panics on overflow before the
zero test. -/
def compute_D (x y A : Nat) : Option Nat :=
  if x + y > U64MAX then none
  else if x + y = 0 then some 0
  else computeD_loop x y A 255 (x + y)

/-- The estimate after k rounds of the compute_D update, starting from d. -/
def computeD_iter (x y A : Nat) : Nat → Nat → Option Nat
  | 0, d => some d
  | k + 1, d =>
    match computeD_step x y A d with
    | none => none
    | some d1 => computeD_iter x y A k d1

/-- Whether the compute_D iteration starting from d meets the convergence
tolerance at round k (the step from the k-th to the (k+1)-th estimate exists
and moves by at most one). -/
def convAt (x y A d k : Nat) : Bool :=
  match computeD_iter x y A k d with
  | none => false
  | some dk =>
    match computeD_step x y A dk with
    | none => false
    | some dk1 => tolOK dk dk1

/-- interpolate_amplification_factor from stable_swap_math.py: piecewise
linear ramp of the amplification factor, evaluated at the given time. -/
def interpolate_amplification_factor
    (now initial_A future_A initial_A_time future_A_time : Nat) : Option Nat :=
  if now < future_A_time then
    if future_A > initial_A then do
      let dt ← u64sub now initial_A_time
      let span ← u64sub future_A_time initial_A_time
      let rise ← u64mul (future_A - initial_A) dt
      let q ← u64div rise span
      u64add initial_A q
    else do
      let dt ← u64sub now initial_A_time
      let span ← u64sub future_A_time initial_A_time
      let fall ← u64mul (initial_A - future_A) dt
      let q ← u64div fall span
      u64sub initial_A q
  else some future_A

/-- Amplification-ramp state of a stable pool (stable_pool.py global vars). -/
structure AmpState where
  initial_amplification_factor : Nat
  future_amplification_factor : Nat
  initial_amplification_factor_time : Nat
  future_amplification_factor_time : Nat
  deriving Repr, DecidableEq

/-- get_amplification_factor from stable_pool.py. -/
def get_amplification_factor (a : AmpState) (now : Nat) : Option Nat :=
  interpolate_amplification_factor now
    a.initial_amplification_factor
    a.future_amplification_factor
    a.initial_amplification_factor_time
    a.future_amplification_factor_time

/-- on_ramp_amplification_factor from stable_pool.py: admin-gated, delayed,
bounded ramp of the amplification factor. Failure (none) models the whole
transaction group being rejected, leaving the stored state unchanged. -/
def on_ramp_amplification_factor (a : AmpState) (param_update_delay : Nat)
    (sender_is_admin : Bool) (now future_A future_time : Nat) :
    Option AmpState := do
  tealAssert (sender_is_admin = true)
  let threshold ← u64add now param_update_delay
  tealAssert (future_time ≥ threshold)
  tealAssert (future_A > 0)
  tealAssert (future_A < MAX_AMPLIFICATION_FACTOR)
  let initial_A ← get_amplification_factor a now
  some {
    initial_amplification_factor := initial_A
    future_amplification_factor := future_A
    initial_amplification_factor_time := now
    future_amplification_factor_time := future_time }

/-- calculate_lp_issuance from stable_pool.py: an empty pool issues the
invariant D of the deposited amounts at the current interpolated
amplification factor; a non-empty pool issues proportionally to the increase
of D. -/
def calculate_lp_issuance_stable (amp : AmpState) (now : Nat) (s : PoolState)
    (adj1 adj2 : Nat) (pool_is_empty : Bool) : Option Nat := do
  let A ← get_amplification_factor amp now
  if pool_is_empty then do
    let x ← u64add s.balance_1 adj1
    let y ← u64add s.balance_2 adj2
    compute_D x y A
  else do
    let D0 ← compute_D s.balance_1 s.balance_2 A
    let x ← u64add s.balance_1 adj1
    let y ← u64add s.balance_2 adj2
    let D1 ← compute_D x y A
    let dd ← u64sub D1 D0
    wideRatio s.lp_circulation dd D0

/-- on_pool for the stable pool: the shared deposit flow with the stable
issuance rule. -/
def on_stable_pool (amp : AmpState) (s : PoolState)
    (a1 a2 slippage now : Nat) : Option (PoolState × Nat × Nat × Nat) :=
  onPoolWith (calculate_lp_issuance_stable amp now) s a1 a2 slippage now

/-- A freshly initialized, empty pool used as a concrete test fixture. -/
def emptyPoolState : PoolState :=
  { asset1_id := 5, asset2_id := 9, balance_1 := 0, balance_2 := 0,
    lp_circulation := 0, asset1_reserve := 0, asset2_reserve := 0,
    reserve_factor := 175000, flash_loan_fee := 1000,
    max_flash_loan_ratio := 100000, swap_fee_pct_scaled := 2500,
    latest_time := 0,
    cumsum_time_weighted_asset1_to_asset2_price := 0,
    cumsum_time_weighted_asset2_to_asset1_price := 0,
    cumsum_volume_asset1 := 0, cumsum_volume_asset2 := 0,
    cumsum_volume_weighted_asset1_to_asset2_price := 0,
    cumsum_volume_weighted_asset2_to_asset1_price := 0,
    cumsum_fees_asset1 := 0, cumsum_fees_asset2 := 0 }

/-- The pool after depositing (1000, 1000) into the empty pool at time 7. -/
def poolAfterSmallDeposit : PoolState :=
  { emptyPoolState with
    balance_1 := 1000, balance_2 := 1000, lp_circulation := 1000,
    latest_time := 7 }

/-- poolAfterSmallDeposit after burn_asset1_out of the full circulation. -/
def poolAfterSmallBurn1 : PoolState :=
  { poolAfterSmallDeposit with balance_1 := 0 }

/-- The pool after the boundary first deposit (2 ^ 32, 2 ^ 32 - 1). -/
def poolBoundaryDeposit : PoolState :=
  { emptyPoolState with
    balance_1 := 4294967296, balance_2 := 4294967295,
    lp_circulation := 4294901760 }

/-- A seeded constant-product pool with balanced reserves of one million. -/
def seededPoolState : PoolState :=
  { emptyPoolState with
    balance_1 := 1000000, balance_2 := 1000000, lp_circulation := 1000000 }

/-- seededPoolState after swap_exact_for of 1000 asset1 at fee 2500. -/
def seededPoolAfterSwap : PoolState :=
  { seededPoolState with
    balance_1 := 1001000, balance_2 := 999004,
    cumsum_volume_asset1 := 997, cumsum_volume_asset2 := 996,
    cumsum_volume_weighted_asset1_to_asset2_price := 996000000000,
    cumsum_volume_weighted_asset2_to_asset1_price := 997000000000,
    cumsum_fees_asset1 := 3 }

/-- A deep pool used for the flash-loan fixtures. -/
def flashPoolState : PoolState :=
  { emptyPoolState with balance_1 := 100000000, balance_2 := 100000000 }

/-- The flash-loan application call transaction of the fixture group. -/
def flashAppCallTxn : TxnInfo :=
  { type_enum := TxnTypeEnum.applicationCall, receiver_is_pool := false,
    amount := 0, xfer_asset := 0, asset_receiver_is_pool := false,
    asset_amount := 0 }

/-- The final repayment transaction of the fixture group: 1001001 units of
asset 5 to the pool. -/
def flashRepayTxn : TxnInfo :=
  { type_enum := TxnTypeEnum.assetTransfer, receiver_is_pool := false,
    amount := 0, xfer_asset := 5, asset_receiver_is_pool := true,
    asset_amount := 1001001 }

/-- The fixture flash-loan transaction group. -/
def flashGroup : List TxnInfo := [flashAppCallTxn, flashRepayTxn]

/-- flashPoolState after a flash loan of 1000000 of asset 5 (fee 1001,
reserve skim 175). -/
def flashPoolAfterLoan : PoolState :=
  { flashPoolState with
    balance_1 := 100000826, asset1_reserve := 175,
    cumsum_fees_asset1 := 826 }

/-- A flat amplification schedule at factor 1000000 (scaled 1e6). -/
def ampFlat : AmpState :=
  { initial_amplification_factor := 1000000,
    future_amplification_factor := 1000000,
    initial_amplification_factor_time := 0,
    future_amplification_factor_time := 0 }

/-- The stable pool after depositing (1000000, 1000000) into the empty pool
at time 5 under ampFlat. -/
def stablePoolAfterDeposit : PoolState :=
  { emptyPoolState with
    balance_1 := 1000000, balance_2 := 1000000, lp_circulation := 2000000,
    latest_time := 5 }


/-- The pool after depositing (1000000, 1000000) into the empty pool at
time 0. -/
def poolAfterMillionDeposit : PoolState :=
  { emptyPoolState with
    balance_1 := 1000000, balance_2 := 1000000, lp_circulation := 1000000 }

/-- The amplification state after the fixture ramp call. -/
def ampAfterRamp : AmpState :=
  { initial_amplification_factor := 1000000
    future_amplification_factor := 2000000
    initial_amplification_factor_time := 10
    future_amplification_factor_time := 100 }

theorem isqrtGo_bounds (n : Nat) :
    ∀ f r, r * r ≤ n → n < (r + 2 ^ f) * (r + 2 ^ f) →
      isqrtGo n f r * isqrtGo n f r ≤ n ∧
        n < (isqrtGo n f r + 1) * (isqrtGo n f r + 1) := by
  intro f
  induction f with
  | zero =>
    intro r h1 h2
    refine ⟨by simpa [isqrtGo] using h1, ?_⟩
    simpa [isqrtGo] using h2
  | succ f ih =>
    intro r h1 h2
    rw [isqrtGo]
    split
    · refine ih _ (by assumption) ?_
      have hp : (2 : Nat) ^ (f + 1) = 2 ^ f + 2 ^ f := by
        rw [pow_succ]; ring
      rw [hp, ← Nat.add_assoc] at h2
      exact h2
    · exact ih _ h1 (by omega)

theorem tealSqrt_eq_sqrt (n : Nat) (h : n < 2 ^ 128) : tealSqrt n = Nat.sqrt n := by
  have h2 : n < (0 + 2 ^ 64) * (0 + 2 ^ 64) := by
    have : (2 : Nat) ^ 64 * 2 ^ 64 = 2 ^ 128 := by norm_num
    simpa [this] using h
  exact Nat.eq_sqrt.mpr (isqrtGo_bounds n 64 0 (by simp) h2)


/-- Claim C6: for u64 inputs, the wrapped accumulator addition returns
addend - (U64MAX - current) - 1 on overflow and current + addend otherwise;
its result always equals (current + addend) mod 2 ^ 64, never exceeds U64MAX,
and iterating it agrees (mod 2 ^ 64) with unbounded addition. -/
theorem wrapped_add_spec (c a : Nat) (hc : c ≤ U64MAX) (ha : a ≤ U64MAX) :
    (c + a > U64MAX →
      calculate_integer_wrapped_value c a = a - (U64MAX - c) - 1) ∧
    (c + a ≤ U64MAX → calculate_integer_wrapped_value c a = c + a) ∧
    calculate_integer_wrapped_value c a = (c + a) % 2 ^ 64 ∧
    calculate_integer_wrapped_value c a ≤ U64MAX ∧
    (∀ z, z ≤ U64MAX →
      calculate_integer_wrapped_value (calculate_integer_wrapped_value c a) z
        = (c + a + z) % 2 ^ 64) := by
  have h64 : (2 : Nat) ^ 64 = 18446744073709551616 := by norm_num
  unfold calculate_integer_wrapped_value U64MAX at *
  refine ⟨?_, ?_, ?_, ?_, ?_⟩
  · intro h
    split <;> omega
  · intro h
    split <;> omega
  · rw [h64]
    split <;> omega
  · split <;> omega
  · intro z hz
    rw [h64]
    split <;> split <;> omega

/-- Witness for wrapped_add_spec at a concrete overflowing input. -/
theorem wrapped_add_spec_witness :
    calculate_integer_wrapped_value 18446744073709551615 5 = 4 := by
  have h := wrapped_add_spec 18446744073709551615 5 (by decide) (by decide)
  have h2 := h.2.2.1
  simpa using h2

theorem tealAssert_eq_some {p : Prop} [Decidable p] {u : Unit} :
    tealAssert p = some u ↔ p := by
  unfold tealAssert; split <;> simp_all

theorem u64add_eq_some {a b c : Nat} :
    u64add a b = some c ↔ a + b ≤ U64MAX ∧ a + b = c := by
  unfold u64add; split <;> simp_all

theorem u64sub_eq_some {a b c : Nat} :
    u64sub a b = some c ↔ b ≤ a ∧ a - b = c := by
  unfold u64sub; split <;> simp_all

theorem u64mul_eq_some {a b c : Nat} :
    u64mul a b = some c ↔ a * b ≤ U64MAX ∧ a * b = c := by
  unfold u64mul; split <;> simp_all

theorem u64div_eq_some {a b c : Nat} :
    u64div a b = some c ↔ b ≠ 0 ∧ a / b = c := by
  unfold u64div; split <;> simp_all

theorem wideRatio_eq_some {a b c q : Nat} :
    wideRatio a b c = some q ↔ c ≠ 0 ∧ a * b / c ≤ U64MAX ∧ a * b / c = q := by
  unfold wideRatio
  split
  · simp_all
  · split <;> simp_all

theorem validate_asset_ratio_eq_some {s : PoolState} {u : Unit} :
    validate_asset_ratio s = some u ↔ ratio_bounds s := by
  unfold validate_asset_ratio ratio_bounds
  simp [tealAssert_eq_some, Option.bind_eq_some, and_assoc]


theorem on_pool_ratio_bounds (s : PoolState) (a1 a2 slippage now : Nat)
    (r : PoolState × Nat × Nat × Nat)
    (h : on_pool s a1 a2 slippage now = some r) : ratio_bounds r.1 := by
  unfold on_pool onPoolWith at h
  simp [Option.bind_eq_some, tealAssert_eq_some,
    validate_asset_ratio_eq_some] at h
  obtain ⟨ha1, ha2, tot, htot, adj1, adj2, res1, res2, hx, lp, hlp, hlppos,
    b1, hb1, b2, hb2, lc, hlc, hval, hr⟩ := h
  rw [← hr]
  exact hval

theorem on_swap_ratio_bounds (s : PoolState) (mrf : Nat)
    (swap_input_is_asset1 : Bool) (amt : Nat) (is_swap_for_exact : Bool)
    (arg now : Nat) (r : PoolState × Nat)
    (h : on_swap s mrf swap_input_is_asset1 amt is_swap_for_exact arg now
      = some r) : ratio_bounds r.1 := by
  unfold on_swap at h
  cases is_swap_for_exact <;>
    simp [Option.bind_eq_some, tealAssert_eq_some,
      validate_asset_ratio_eq_some] at h
  · obtain ⟨s1, p12, p21, hsave, hmrf, hamt, h2⟩ := h
    obtain ⟨a, b2, c, hh, s4, hupd, hval, hr⟩ := h2
    rw [← hr]
    exact hval
  · obtain ⟨s1, p12, p21, hsave, hmrf, hamt, h2⟩ := h
    obtain ⟨a, b2, c, hh, s4, hupd, hval, hr⟩ := h2
    rw [← hr]
    exact hval

theorem onPoolWith_empty_inversion
    (calcIssuance : PoolState → Nat → Nat → Bool → Option Nat)
    (s : PoolState) (a1 a2 slippage now : Nat)
    (s1 : PoolState) (lp res1 res2 : Nat)
    (hb1 : s.balance_1 = 0) (hb2 : s.balance_2 = 0)
    (h : onPoolWith calcIssuance s a1 a2 slippage now
      = some (s1, lp, res1, res2)) :
    0 < a1 ∧ 0 < a2 ∧ a1 ≤ U64MAX ∧ a2 ≤ U64MAX ∧
    calcIssuance s a1 a2 true = some lp ∧ 0 < lp ∧
    res1 = 0 ∧ res2 = 0 ∧
    s1 = { s with
      latest_time := now, balance_1 := a1, balance_2 := a2,
      lp_circulation := s.lp_circulation + lp } ∧
    ratio_bounds s1 := by
  unfold onPoolWith at h
  simp [hb1, hb2, adjust_pool_input_amounts, Option.bind_eq_some,
    tealAssert_eq_some, validate_asset_ratio_eq_some, u64add_eq_some] at h
  obtain ⟨ha1, ha2, adj1, adj2, r1c, r2c, ⟨hadj1, hadj2, hpair⟩, lpv, hcalc,
    hlpv, b1v, ⟨hA1, hb1v⟩, b2v, ⟨hA2, hb2v⟩, lcv, ⟨hlcle, hlcv⟩, hrb, hseq,
    hlpeq, hr1, hr2⟩ := h
  simp only [Prod.ext_iff] at hpair
  obtain ⟨h01, h02⟩ := hpair
  subst hadj1
  subst hadj2
  subst hb1v
  subst hb2v
  subst hlcv
  subst hlpeq
  subst hr1
  subst hr2
  refine ⟨ha1, ha2, hA1, hA2, hcalc, hlpv, h01.symm, h02.symm, hseq.symm, ?_⟩
  rw [← hseq]
  exact hrb

theorem on_burn_asset1_out_full (s : PoolState)
    (hpos : 0 < s.lp_circulation) (hbal : 0 < s.balance_1) :
    on_burn_asset1_out s s.lp_circulation
      = some ({ s with balance_1 := 0 }, s.balance_1) := by
  unfold on_burn_asset1_out
  simp [tealAssert, hpos, hbal, hbal.ne', u64sub]

theorem on_burn_asset2_out_full (s : PoolState)
    (hpos : 0 < s.lp_circulation) (hbal : 0 < s.balance_2) :
    on_burn_asset2_out s s.lp_circulation
      = some ({ s with balance_2 := 0, lp_circulation := 0 }, s.balance_2) := by
  unfold on_burn_asset2_out
  simp [tealAssert, hpos, hbal, hbal.ne', u64sub]

theorem validate_flash_loan_txn_inversion {s1 : PoolState}
    {aid amt gi : Nat} {u : Unit}
    (h : validate_flash_loan_txn s1 aid amt gi = some u) :
    gi = 0 ∧ (aid = s1.asset1_id ∨ aid = s1.asset2_id) ∧ 0 < amt ∧
    (aid = s1.asset1_id →
      amt ≤ s1.balance_1 * s1.max_flash_loan_ratio / FIXED6) ∧
    (aid ≠ s1.asset1_id →
      amt ≤ s1.balance_2 * s1.max_flash_loan_ratio / FIXED6) := by
  unfold validate_flash_loan_txn at h
  by_cases hA : aid = s1.asset1_id
  · simp [hA, Option.bind_eq_some, tealAssert_eq_some, wideRatio_eq_some] at h
    obtain ⟨hgi, hamt, w, ⟨hf0, hule, hweq⟩, hle⟩ := h
    exact ⟨hgi, Or.inl hA, hamt, fun _ => by omega, fun hne => absurd hA hne⟩
  · simp [hA, Option.bind_eq_some, tealAssert_eq_some, wideRatio_eq_some] at h
    obtain ⟨hgi, h2, hamt, w, ⟨hf0, hule, hweq⟩, hle⟩ := h
    exact ⟨hgi, Or.inr h2, hamt, fun heq => absurd heq hA, fun _ => by omega⟩

theorem validate_flash_loan_repay_txn_inversion
    {aid amt fee : Nat} {repay : TxnInfo} {u : Unit}
    (h : validate_flash_loan_repay_txn aid amt fee repay = some u) :
    amt + fee ≤ U64MAX ∧
    (aid = 1 →
      repay.type_enum = TxnTypeEnum.payment ∧ repay.receiver_is_pool = true ∧
      repay.amount = amt + fee) ∧
    (aid ≠ 1 →
      repay.type_enum = TxnTypeEnum.assetTransfer ∧ repay.xfer_asset = aid ∧
      repay.asset_receiver_is_pool = true ∧ repay.asset_amount = amt + fee) := by
  unfold validate_flash_loan_repay_txn at h
  by_cases hA : aid = 1 <;>
    simp [hA, Option.bind_eq_some, tealAssert_eq_some, u64add_eq_some,
      verify_txn_is_sending_algos_to_pool, verify_txn_is_sending_asa_to_pool]
      at h <;>
    simp [hA] <;> tauto

theorem flash_loan_update_balances_inversion {s1 : PoolState} {is1 : Bool}
    {fee : Nat} {s3 : PoolState}
    (h : flash_loan_update_balances s1 is1 fee = some s3) :
    (is1 = true →
      s3.balance_1 = s1.balance_1 + fee - fee * s1.reserve_factor / FIXED6 ∧
      s3.asset1_reserve
        = s1.asset1_reserve + fee * s1.reserve_factor / FIXED6 ∧
      s3.balance_2 = s1.balance_2 ∧ s3.asset2_reserve = s1.asset2_reserve) ∧
    (is1 = false →
      s3.balance_2 = s1.balance_2 + fee - fee * s1.reserve_factor / FIXED6 ∧
      s3.asset2_reserve
        = s1.asset2_reserve + fee * s1.reserve_factor / FIXED6 ∧
      s3.balance_1 = s1.balance_1 ∧ s3.asset1_reserve = s1.asset1_reserve) := by
  unfold flash_loan_update_balances update_reserves at h
  cases is1 <;>
    simp [Option.bind_eq_some, u64add_eq_some, u64sub_eq_some,
      wideRatio_eq_some] at h
  · obtain ⟨b2, ⟨hb2le, hb2⟩, ftr, ⟨hf0, hftrle, hftr⟩, flr, ⟨hflr1, hflr2⟩,
      b2s, ⟨hb2s1, hb2s2⟩, r2, ⟨hr2le, hr2⟩, hseq⟩ := h
    subst hb2
    subst hftr
    subst hflr2
    subst hb2s2
    subst hr2
    subst hseq
    constructor
    · intro hcon
      cases hcon
    · intro hcon
      exact ⟨rfl, rfl, rfl, rfl⟩
  · obtain ⟨b1, ⟨hb1le, hb1⟩, ftr, ⟨hf0, hftrle, hftr⟩, flr, ⟨hflr1, hflr2⟩,
      b1s, ⟨hb1s1, hb1s2⟩, r1, ⟨hr1le, hr1⟩, hseq⟩ := h
    subst hb1
    subst hftr
    subst hflr2
    subst hb1s2
    subst hr1
    subst hseq
    constructor
    · intro hcon
      exact ⟨rfl, rfl, rfl, rfl⟩
    · intro hcon
      cases hcon


theorem on_flash_loan_inversion
    {s : PoolState} {mrf mflf mmflr aid amt gi : Nat} {g : List TxnInfo}
    {s3 : PoolState} {fee : Nat}
    (h : on_flash_loan s mrf mflf mmflr aid amt gi g = some (s3, fee)) :
    mrf ≤ FIXED6 ∧ mflf ≤ FIXED6 ∧ mmflr ≤ FIXED6 ∧
    fee = amt * mflf / FIXED6 + 1 ∧
    gi = 0 ∧ (aid = s.asset1_id ∨ aid = s.asset2_id) ∧ 0 < amt ∧
    (aid = s.asset1_id → amt ≤ s.balance_1 * mmflr / FIXED6) ∧
    (aid ≠ s.asset1_id → amt ≤ s.balance_2 * mmflr / FIXED6) ∧
    (∃ repay, g[g.length - 1]? = some repay ∧
      (aid = 1 → repay.type_enum = TxnTypeEnum.payment ∧
        repay.receiver_is_pool = true ∧ repay.amount = amt + fee) ∧
      (aid ≠ 1 → repay.type_enum = TxnTypeEnum.assetTransfer ∧
        repay.xfer_asset = aid ∧ repay.asset_receiver_is_pool = true ∧
        repay.asset_amount = amt + fee)) ∧
    (aid = s.asset1_id →
      s3.balance_1 = s.balance_1 + fee - fee * mrf / FIXED6 ∧
      s3.asset1_reserve = s.asset1_reserve + fee * mrf / FIXED6) ∧
    (aid ≠ s.asset1_id →
      s3.balance_2 = s.balance_2 + fee - fee * mrf / FIXED6 ∧
      s3.asset2_reserve = s.asset2_reserve + fee * mrf / FIXED6) ∧
    ratio_bounds s3 := by
  unfold on_flash_loan at h
  simp [Option.bind_eq_some, tealAssert_eq_some, validate_asset_ratio_eq_some,
    wideRatio_eq_some, u64add_eq_some] at h
  rcases hG : g[g.length - 1]? with _ | repay <;> rw [hG] at h
  · simp at h
  · simp [Option.bind_eq_some, tealAssert_eq_some,
      validate_asset_ratio_eq_some] at h
    obtain ⟨hmrf, hmflf, hmmflr, w, ⟨hf0, hwle, hweq⟩, fee2, ⟨hf2le, hf2⟩,
      ⟨x, hvtxn⟩, ⟨x2, hrep⟩, sF, hub, hrbF, hsF, hfF⟩ := h
    subst hsF
    subst hfF
    have vt := validate_flash_loan_txn_inversion hvtxn
    have rp := validate_flash_loan_repay_txn_inversion hrep
    have ub := flash_loan_update_balances_inversion hub
    refine ⟨hmrf, hmflf, hmmflr, by omega, vt.1, vt.2.1, vt.2.2.1,
      vt.2.2.2.1, vt.2.2.2.2, ⟨repay, rfl, rp.2.1, rp.2.2⟩, ?_, ?_, hrbF⟩
    · intro hA
      have hb : (aid == s.asset1_id) = true := by simp [hA]
      obtain ⟨h1, h2, h3, h4⟩ := ub.1 hb
      exact ⟨h1, h2⟩
    · intro hA
      have hb : (aid == s.asset1_id) = false := by simp [hA]
      obtain ⟨h1, h2, h3, h4⟩ := ub.2 hb
      exact ⟨h1, h2⟩

/-- Claim C1: depositing (a1, a2) into an empty, initialized constant-product
pool and then burning the entire minted LP circulation via the paired
burn_asset1_out and burn_asset2_out operations, with no intervening
operations, sends exactly a1 of asset1 and a2 of asset2 back to the caller
and leaves balance_1 = 0, balance_2 = 0 and lp_circulation = 0. -/
theorem pool_then_full_burn_round_trip
    (s : PoolState) (a1 a2 slippage now : Nat)
    (hb1 : s.balance_1 = 0) (hb2 : s.balance_2 = 0)
    (hlp : s.lp_circulation = 0)
    (s1 : PoolState) (lp res1 res2 : Nat)
    (hpool : on_pool s a1 a2 slippage now = some (s1, lp, res1, res2)) :
    lp = s1.lp_circulation ∧
    ∃ s2 s3,
      on_burn_asset1_out s1 s1.lp_circulation = some (s2, a1) ∧
      on_burn_asset2_out s2 s1.lp_circulation = some (s3, a2) ∧
      s3.balance_1 = 0 ∧ s3.balance_2 = 0 ∧ s3.lp_circulation = 0 := by
  have hpool2 : onPoolWith calculate_lp_issuance_cp s a1 a2 slippage now
      = some (s1, lp, res1, res2) := hpool
  obtain ⟨ha1, ha2, hA1, hA2, hcalc, hlppos, hr1, hr2, hs1eq, hrb⟩ :=
    onPoolWith_empty_inversion calculate_lp_issuance_cp s a1 a2 slippage now
      s1 lp res1 res2 hb1 hb2 hpool2
  have hmin : (MIN_POOL_BALANCE : Nat) = 1000 := rfl
  obtain ⟨hm1, hm2, hq1, hq2⟩ := hrb
  have hfld1 : s1.balance_1 = a1 := by rw [hs1eq]
  have hfld2 : s1.balance_2 = a2 := by rw [hs1eq]
  have hfldl : s1.lp_circulation = lp := by rw [hs1eq]; simp [hlp]
  have hpos1 : 0 < s1.lp_circulation := by omega
  have hbal1 : 0 < s1.balance_1 := by omega
  refine ⟨hfldl.symm, { s1 with balance_1 := 0 },
    { s1 with balance_1 := 0, balance_2 := 0, lp_circulation := 0 },
    ?_, ?_, rfl, rfl, rfl⟩
  · rw [← hfld1]
    exact on_burn_asset1_out_full s1 hpos1 hbal1
  · have hpos2 : 0 < ({ s1 with balance_1 := 0 } : PoolState).lp_circulation :=
      hpos1
    have hbal2 : 0 < ({ s1 with balance_1 := 0 } : PoolState).balance_2 := by
      show 0 < s1.balance_2
      omega
    have := on_burn_asset2_out_full { s1 with balance_1 := 0 } hpos2 hbal2
    rw [← hfld2]
    exact this

/-- Witness for pool_then_full_burn_round_trip: the concrete deposit of
(1000, 1000) at time 7 and its full burn. -/
theorem pool_then_full_burn_round_trip_witness :
    1000 = poolAfterSmallDeposit.lp_circulation ∧
    ∃ s2 s3,
      on_burn_asset1_out poolAfterSmallDeposit
        poolAfterSmallDeposit.lp_circulation = some (s2, 1000) ∧
      on_burn_asset2_out s2 poolAfterSmallDeposit.lp_circulation
        = some (s3, 1000) ∧
      s3.balance_1 = 0 ∧ s3.balance_2 = 0 ∧ s3.lp_circulation = 0 :=
  pool_then_full_burn_round_trip emptyPoolState 1000 1000 10000 7 rfl rfl rfl
    poolAfterSmallDeposit 1000 0 0 (by decide)

/-- Claim C3 counterexample: a deposit of (1000, 1000) into the empty pool
succeeds, and the subsequent burn_asset1_out of the full circulation also
succeeds while leaving balance_1 = 0, below MIN_POOL_BALANCE, so the claimed
invariant does not hold after every successful balance-mutating operation. -/
theorem burn_breaks_balance_floor_counterexample :
    on_pool emptyPoolState 1000 1000 10000 7
      = some (poolAfterSmallDeposit, 1000, 0, 0) ∧
    on_burn_asset1_out poolAfterSmallDeposit 1000
      = some (poolAfterSmallBurn1, 1000) ∧
    poolAfterSmallBurn1.balance_1 = 0 ∧
    ¬ (MIN_POOL_BALANCE ≤ poolAfterSmallBurn1.balance_1) := by decide

/-- Claim C3 (corrected): the MIN_POOL_BALANCE floor and the strict 1e9
integer-division ratio bounds are asserted after every successful pool
(deposit), swap (either mode) and flash_loan operation; the two burn
operations perform no such validation and can leave the balances below the
floor. -/
theorem ratio_bounds_after_pool_swap_flash_loan :
    (∀ s a1 a2 slippage now r, on_pool s a1 a2 slippage now = some r →
      ratio_bounds r.1) ∧
    (∀ s mrf b amt fe arg now r, on_swap s mrf b amt fe arg now = some r →
      ratio_bounds r.1) ∧
    (∀ s mrf mflf mmflr aid amt gi g r,
      on_flash_loan s mrf mflf mmflr aid amt gi g = some r →
      ratio_bounds r.1) := by
  refine ⟨on_pool_ratio_bounds, on_swap_ratio_bounds, ?_⟩
  intro s mrf mflf mmflr aid amt gi g r h
  obtain ⟨s3, fee⟩ := r
  obtain ⟨-, -, -, -, -, -, -, -, -, -, -, -, hrb⟩ := on_flash_loan_inversion h
  exact hrb

/-- Witness for ratio_bounds_after_pool_swap_flash_loan at the concrete
(1000, 1000) deposit. -/
theorem ratio_bounds_after_pool_swap_flash_loan_witness :
    ratio_bounds poolAfterSmallDeposit :=
  ratio_bounds_after_pool_swap_flash_loan.1 emptyPoolState 1000 1000 10000 7
    (poolAfterSmallDeposit, 1000, 0, 0) (by decide)

/-- Claim C2 counterexample: a flash loan of 1000000 at flash-loan fee rate
1000 (scaled 1e6) succeeds with a repayment of exactly 1001001 units, which
differs from the claimed 1000000 + ceil(1000000 * 1000 / 1e6) = 1001000:
the code charges floor + 1, not ceiling. -/
theorem flash_loan_ceil_fee_counterexample :
    on_flash_loan flashPoolState 175000 1000 100000 5 1000000 0 flashGroup
      = some (flashPoolAfterLoan, 1001) ∧
    flashRepayTxn.asset_amount = 1001001 ∧
    (1001001 : Nat) ≠ 1000000 + (1000000 * 1000 + (FIXED6 - 1)) / FIXED6 := by
  refine ⟨by decide, by decide, by decide⟩

/-- Claim C2 (corrected): a flash loan of amount amt in one of the two pool
assets succeeds only if amt > 0, amt is at most the loaned-side balance times
the (freshly pulled) max flash-loan ratio over 1e6, and the final group
transaction repays exactly amt + fee of the loaned asset, where
fee = floor(amt * flash_loan_fee / 1e6) + 1; on success the loaned side is
credited with the fee and the reserve-factor share of the fee is skimmed
into that side of the reserves. -/
theorem flash_loan_spec (s : PoolState) (mrf mflf mmflr aid amt gi : Nat)
    (g : List TxnInfo) (s3 : PoolState) (fee : Nat)
    (h : on_flash_loan s mrf mflf mmflr aid amt gi g = some (s3, fee)) :
    0 < amt ∧
    (aid = s.asset1_id ∨ aid = s.asset2_id) ∧
    fee = amt * mflf / FIXED6 + 1 ∧
    (aid = s.asset1_id → amt ≤ s.balance_1 * mmflr / FIXED6) ∧
    (aid ≠ s.asset1_id → amt ≤ s.balance_2 * mmflr / FIXED6) ∧
    (∃ repay, g[g.length - 1]? = some repay ∧
      (aid = 1 → repay.amount = amt + fee) ∧
      (aid ≠ 1 → repay.asset_amount = amt + fee)) ∧
    (aid = s.asset1_id →
      s3.balance_1 = s.balance_1 + fee - fee * mrf / FIXED6 ∧
      s3.asset1_reserve = s.asset1_reserve + fee * mrf / FIXED6) ∧
    (aid ≠ s.asset1_id →
      s3.balance_2 = s.balance_2 + fee - fee * mrf / FIXED6 ∧
      s3.asset2_reserve = s.asset2_reserve + fee * mrf / FIXED6) := by
  obtain ⟨-, -, -, hfee, -, hor, hamt, hcap1, hcap2,
    ⟨repay, hget, hrep1, hrep2⟩, hupd1, hupd2, -⟩ := on_flash_loan_inversion h
  exact ⟨hamt, hor, hfee, hcap1, hcap2,
    ⟨repay, hget, fun hA => (hrep1 hA).2.2, fun hA => (hrep2 hA).2.2.2⟩,
    hupd1, hupd2⟩

/-- Witness for flash_loan_spec at the concrete fixture loan. -/
theorem flash_loan_spec_witness :
    ∃ repay, flashGroup[flashGroup.length - 1]? = some repay ∧
      ((5 : Nat) = 1 → repay.amount = 1000000 + 1001) ∧
      ((5 : Nat) ≠ 1 → repay.asset_amount = 1000000 + 1001) := by
  have h := flash_loan_spec flashPoolState 175000 1000 100000 5 1000000 0
    flashGroup flashPoolAfterLoan 1001 (by decide)
  exact h.2.2.2.2.2.1

/-- Claim C9: the flash_loan application call is accepted only at group
index 0, the validated repayment is always the transaction at the final
group index, and a flash_loan call at any other group position fails. -/
theorem flash_loan_group_position :
    (∀ s mrf mflf mmflr aid amt gi g (s3 : PoolState) (fee : Nat),
      on_flash_loan s mrf mflf mmflr aid amt gi g = some (s3, fee) →
      gi = 0 ∧ ∃ repay, g[g.length - 1]? = some repay ∧
        (aid = 1 → repay.type_enum = TxnTypeEnum.payment ∧
          repay.receiver_is_pool = true ∧ repay.amount = amt + fee) ∧
        (aid ≠ 1 → repay.type_enum = TxnTypeEnum.assetTransfer ∧
          repay.xfer_asset = aid ∧ repay.asset_receiver_is_pool = true ∧
          repay.asset_amount = amt + fee)) ∧
    (∀ s mrf mflf mmflr aid amt gi g, gi ≠ 0 →
      on_flash_loan s mrf mflf mmflr aid amt gi g = none) := by
  constructor
  · intro s mrf mflf mmflr aid amt gi g s3 fee h
    obtain ⟨-, -, -, -, hgi, -, -, -, -, hrep, -, -, -⟩ :=
      on_flash_loan_inversion h
    exact ⟨hgi, hrep⟩
  · intro s mrf mflf mmflr aid amt gi g hgi
    cases hres : on_flash_loan s mrf mflf mmflr aid amt gi g with
    | none => rfl
    | some r =>
      obtain ⟨s3, fee⟩ := r
      obtain ⟨-, -, -, -, hgi0, -, -, -, -, -, -, -, -⟩ :=
        on_flash_loan_inversion hres
      exact absurd hgi0 hgi

/-- Witness for flash_loan_group_position at the concrete fixture loan. -/
theorem flash_loan_group_position_witness :
    (0 : Nat) = 0 ∧ ∃ repay, flashGroup[flashGroup.length - 1]? = some repay ∧
      ((5 : Nat) = 1 → repay.type_enum = TxnTypeEnum.payment ∧
        repay.receiver_is_pool = true ∧ repay.amount = 1000000 + 1001) ∧
      ((5 : Nat) ≠ 1 → repay.type_enum = TxnTypeEnum.assetTransfer ∧
        repay.xfer_asset = 5 ∧ repay.asset_receiver_is_pool = true ∧
        repay.asset_amount = 1000000 + 1001) :=
  flash_loan_group_position.1 flashPoolState 175000 1000 100000 5 1000000 0
    flashGroup flashPoolAfterLoan 1001 (by decide)


/-- Claim C5 (corrected): for a deposit (a1, a2) into an empty
constant-product pool, the LP amount issued equals isqrt(a1 * a2) exactly
when a2 < floor(U64MAX / a1) (the code guard), and isqrt(a1) * isqrt(a2)
otherwise; the latter branch is also taken at the boundary
a2 = floor(U64MAX / a1), where the product still fits in 64 bits (see
counterexample). The deposited amounts become the pool balances. -/
theorem empty_pool_lp_issuance
    (s : PoolState) (a1 a2 slippage now : Nat)
    (hb1 : s.balance_1 = 0) (hb2 : s.balance_2 = 0)
    (s1 : PoolState) (lp res1 res2 : Nat)
    (hpool : on_pool s a1 a2 slippage now = some (s1, lp, res1, res2)) :
    (U64MAX / a1 > a2 → lp = Nat.sqrt (a1 * a2)) ∧
    (¬ U64MAX / a1 > a2 → lp = Nat.sqrt a1 * Nat.sqrt a2) ∧
    s1.balance_1 = a1 ∧ s1.balance_2 = a2 := by
  have hpool2 : onPoolWith calculate_lp_issuance_cp s a1 a2 slippage now
      = some (s1, lp, res1, res2) := hpool
  obtain ⟨ha1, ha2, hA1, hA2, hcalc, hlppos, hr1, hr2, hs1eq, hrb⟩ :=
    onPoolWith_empty_inversion calculate_lp_issuance_cp s a1 a2 slippage now
      s1 lp res1 res2 hb1 hb2 hpool2
  have h128a : a1 < 2 ^ 128 := lt_of_le_of_lt hA1 (by norm_num [U64MAX])
  have h128b : a2 < 2 ^ 128 := lt_of_le_of_lt hA2 (by norm_num [U64MAX])
  unfold calculate_lp_issuance_cp at hcalc
  rw [if_pos rfl, if_neg ha1.ne'] at hcalc
  refine ⟨?_, ?_, by rw [hs1eq], by rw [hs1eq]⟩
  · intro hlt
    rw [if_pos hlt] at hcalc
    simp [Option.bind_eq_some, u64mul_eq_some] at hcalc
    obtain ⟨p, ⟨hple, hpeq⟩, hsq⟩ := hcalc
    subst hpeq
    rw [← hsq]
    exact (tealSqrt_eq_sqrt (a1 * a2)
      (lt_of_le_of_lt hple (by norm_num [U64MAX])))
  · intro hge
    rw [if_neg hge] at hcalc
    simp [u64mul_eq_some] at hcalc
    obtain ⟨hle, heq⟩ := hcalc
    rw [← heq, tealSqrt_eq_sqrt a1 h128a, tealSqrt_eq_sqrt a2 h128b]


/-- Witness for empty_pool_lp_issuance at the concrete deposit of one
million of each asset, which issues exactly one million LP tokens. -/
theorem empty_pool_lp_issuance_witness :
    (1000000 : Nat) = Nat.sqrt (1000000 * 1000000) := by
  have h := empty_pool_lp_issuance emptyPoolState 1000000 1000000 10000 0 rfl
    rfl poolAfterMillionDeposit 1000000 0 0 (by decide)
  exact h.1 (by decide)

/-- Claim C5 counterexample: depositing (2 ^ 32, 2 ^ 32 - 1) into the empty
pool succeeds and issues isqrt(2 ^ 32) * isqrt(2 ^ 32 - 1) = 4294901760 LP
tokens even though the product fits in 64 bits, so the claimed
fits-in-64-bits criterion does not match the code guard
U64MAX / a1 > a2. -/
theorem empty_pool_lp_issuance_counterexample :
    on_pool emptyPoolState 4294967296 4294967295 10000 0
      = some (poolBoundaryDeposit, 4294901760, 0, 0) ∧
    4294967296 * 4294967295 ≤ U64MAX ∧
    Nat.sqrt (4294967296 * 4294967295) = 4294967295 ∧
    (4294901760 : Nat) ≠ 4294967295 := by
  refine ⟨by decide, by decide, ?_, by decide⟩
  exact (Nat.eq_sqrt.mpr (by constructor <;> norm_num)).symm

/-- The oracle time-weighted-price update leaves the balances and the swap
fee unchanged. -/
theorem save_latest_cumsum_time_weighted_price_fields
    {s : PoolState} {now : Nat} {s1 : PoolState} {p12 p21 : Nat}
    (h : save_latest_cumsum_time_weighted_price s now = some (s1, p12, p21)) :
    s1.balance_1 = s.balance_1 ∧ s1.balance_2 = s.balance_2 ∧
    s1.swap_fee_pct_scaled = s.swap_fee_pct_scaled := by
  unfold save_latest_cumsum_time_weighted_price at h
  simp [Option.bind_eq_some, u64sub_eq_some, u64div_eq_some,
    wideRatio_eq_some] at h
  obtain ⟨hd, hdfacts, pr12, hpr12facts, pr21, hpr21facts, qd12,
    ⟨hq12f, a, haf, hrec, hp12e, hp21e⟩⟩ := h
  rw [← hrec]
  exact ⟨rfl, rfl, rfl⟩

/-- Inversion of handle_swap_exact_for: the fee is floor plus one on the
scaled input and the output is the constant-product quote on the input net
of fee. -/
theorem handle_swap_exact_for_inversion
    {s2 : PoolState} {b : Bool} {input minOut p12 p21 : Nat}
    {s3 : PoolState} {out fee : Nat}
    (h : handle_swap_exact_for s2 b input minOut p12 p21
      = some (s3, out, fee)) :
    fee = input * s2.swap_fee_pct_scaled / FIXED6 + 1 ∧
    0 < input - fee ∧
    out = (if b = true then
        s2.balance_2 * (input - fee) / (s2.balance_1 + (input - fee))
      else
        s2.balance_1 * (input - fee) / (s2.balance_2 + (input - fee))) ∧
    minOut ≤ out := by
  unfold handle_swap_exact_for swap_exact_asset1_for swap_exact_asset2_for at h
  cases b <;>
    simp [Option.bind_eq_some, tealAssert_eq_some, u64add_eq_some,
      u64sub_eq_some, wideRatio_eq_some] at h
  · obtain ⟨w, ⟨hf0, hwle, hweq⟩, feev, ⟨hfle, hfeq⟩, ilf, ⟨hilfle, hilfeq⟩,
      hilfpos, outv, ⟨den, ⟨hdle, hdeq⟩, hden0, houle, houeq⟩, b1v,
      ⟨hb1le, hb1eq⟩, b2v, ⟨hb2le, hb2eq⟩, sv, hvol, houtpos, hmin, hsv, hout,
      hfee⟩ := h
    subst hweq
    subst hfeq
    subst hilfeq
    subst hdeq
    subst houeq
    subst hout
    subst hfee
    exact ⟨rfl, hilfpos, by simp, hmin⟩
  · obtain ⟨w, ⟨hf0, hwle, hweq⟩, feev, ⟨hfle, hfeq⟩, ilf, ⟨hilfle, hilfeq⟩,
      hilfpos, outv, ⟨den, ⟨hdle, hdeq⟩, hden0, houle, houeq⟩, b1v,
      ⟨hb1le, hb1eq⟩, b2v, ⟨hb2le, hb2eq⟩, sv, hvol, houtpos, hmin, hsv, hout,
      hfee⟩ := h
    subst hweq
    subst hfeq
    subst hilfeq
    subst hdeq
    subst houeq
    subst hout
    subst hfee
    exact ⟨rfl, hilfpos, by simp, hmin⟩


/-- Claim C4: for swap_exact_for on a constant-product pool the output
equals floor(balance_other * input_less_fee / (balance_in +
input_less_fee)), where input_less_fee is the input minus the fee
floor(input * swap_fee_pct_scaled / 1e6) + 1; the minimum-output bound is
honoured. The concrete instance of the claim is the witness below. -/
theorem swap_exact_for_output_formula
    (s : PoolState) (mrf : Nat) (swap_input_is_asset1 : Bool)
    (input minOut now : Nat) (s4 : PoolState) (out : Nat)
    (h : on_swap s mrf swap_input_is_asset1 input false minOut now
      = some (s4, out)) :
    ∃ fee input_less_fee,
      fee = input * s.swap_fee_pct_scaled / FIXED6 + 1 ∧
      input_less_fee = input - fee ∧ 0 < input_less_fee ∧
      out = (if swap_input_is_asset1 = true then
          s.balance_2 * input_less_fee / (s.balance_1 + input_less_fee)
        else
          s.balance_1 * input_less_fee / (s.balance_2 + input_less_fee)) ∧
      minOut ≤ out := by
  unfold on_swap at h
  simp [Option.bind_eq_some, tealAssert_eq_some,
    validate_asset_ratio_eq_some] at h
  obtain ⟨s1, p12, p21, hsave, hmrf, hamt, s3, out2, fee, hhandle, s4v, hupd,
    hval, hr⟩ := h
  obtain ⟨hf1, hf2, hfp⟩ := save_latest_cumsum_time_weighted_price_fields hsave
  obtain ⟨hfee, hilfpos, hout, hmin⟩ := handle_swap_exact_for_inversion hhandle
  refine ⟨fee, input - fee, ?_, rfl, hilfpos, ?_, ?_⟩
  · rw [hfee]
    show input * s1.swap_fee_pct_scaled / FIXED6 + 1
      = input * s.swap_fee_pct_scaled / FIXED6 + 1
    rw [hfp]
  · have hpair := hr
    simp only [Prod.ext_iff] at hpair
    obtain ⟨hse, houte⟩ := hpair
    subst houte
    rw [hout]
    show (if swap_input_is_asset1 = true then
        s1.balance_2 * (input - fee) / (s1.balance_1 + (input - fee))
      else
        s1.balance_1 * (input - fee) / (s1.balance_2 + (input - fee))) = _
    rw [hf1, hf2]
  · have hpair := hr
    simp only [Prod.ext_iff] at hpair
    obtain ⟨hse, houte⟩ := hpair
    subst houte
    exact hmin

/-- Witness for swap_exact_for_output_formula: balances one million each,
fee rate 2500, input 1000 of asset1 gives fee 3, input_less_fee 997 and
output 996. -/
theorem swap_exact_for_output_formula_witness :
    ∃ fee input_less_fee,
      fee = 1000 * seededPoolState.swap_fee_pct_scaled / FIXED6 + 1 ∧
      input_less_fee = 1000 - fee ∧ 0 < input_less_fee ∧
      (996 : Nat) = (if (true : Bool) = true then
          seededPoolState.balance_2 * input_less_fee
            / (seededPoolState.balance_1 + input_less_fee)
        else
          seededPoolState.balance_1 * input_less_fee
            / (seededPoolState.balance_2 + input_less_fee)) ∧
      (0 : Nat) ≤ 996 :=
  swap_exact_for_output_formula seededPoolState 175000 true 1000 0 0
    seededPoolAfterSwap 996 (by decide)


/-- Claim C8: on_ramp_amplification_factor succeeds only if the sender is
the admin, future_time is at least now plus param_update_delay, and
0 < future_A < MAX_AMPLIFICATION_FACTOR; on success it stores the currently
interpolated amplification factor as the new initial A, the current time as
the initial A time, and the arguments as the future A and future A time.
Failure (none) models the rejected transaction group, which leaves the
stored amplification state unchanged. -/
theorem ramp_amplification_spec (a : AmpState) (param_update_delay : Nat)
    (sender_is_admin : Bool) (now future_A future_time : Nat) (a2 : AmpState)
    (h : on_ramp_amplification_factor a param_update_delay sender_is_admin
      now future_A future_time = some a2) :
    sender_is_admin = true ∧ future_time ≥ now + param_update_delay ∧
    0 < future_A ∧ future_A < MAX_AMPLIFICATION_FACTOR ∧
    ∃ v, get_amplification_factor a now = some v ∧
      a2 = { initial_amplification_factor := v
             future_amplification_factor := future_A
             initial_amplification_factor_time := now
             future_amplification_factor_time := future_time } := by
  unfold on_ramp_amplification_factor at h
  simp [Option.bind_eq_some, tealAssert_eq_some, u64add_eq_some] at h
  obtain ⟨hadmin, thr, ⟨hthle, hthre⟩, hge2, hpos2, hmax2, v, hv, heq⟩ := h
  exact ⟨hadmin, by omega, hpos2, hmax2, v, hv, heq.symm⟩

/-- Witness for ramp_amplification_spec at a concrete admin ramp call. -/
theorem ramp_amplification_spec_witness :
    (true : Bool) = true ∧ (100 : Nat) ≥ 10 + 5 ∧ (0 : Nat) < 2000000 ∧
    (2000000 : Nat) < MAX_AMPLIFICATION_FACTOR ∧
    ∃ v, get_amplification_factor ampFlat 10 = some v ∧
      ampAfterRamp = { initial_amplification_factor := v
                       future_amplification_factor := 2000000
                       initial_amplification_factor_time := 10
                       future_amplification_factor_time := 100 } :=
  ramp_amplification_spec ampFlat 5 true 10 2000000 100 ampAfterRamp
    (by decide)

/-- Claim C10: for a deposit into an empty StablePool the LP amount issued
equals compute_D of the deposited amounts at the current time-interpolated
amplification factor, and the deposit is rejected when that quantity is
zero. -/
theorem stable_pool_empty_issuance
    (amp : AmpState) (s : PoolState) (a1 a2 slippage now : Nat)
    (hb1 : s.balance_1 = 0) (hb2 : s.balance_2 = 0) :
    (∀ s1 lp res1 res2,
      on_stable_pool amp s a1 a2 slippage now = some (s1, lp, res1, res2) →
      0 < lp ∧ ∃ A, get_amplification_factor amp now = some A ∧
        compute_D a1 a2 A = some lp) ∧
    (∀ A, get_amplification_factor amp now = some A →
      compute_D a1 a2 A = some 0 →
      on_stable_pool amp s a1 a2 slippage now = none) := by
  have main : ∀ s1 lp res1 res2,
      on_stable_pool amp s a1 a2 slippage now = some (s1, lp, res1, res2) →
      0 < lp ∧ ∃ A, get_amplification_factor amp now = some A ∧
        compute_D a1 a2 A = some lp := by
    intro s1 lp r1 r2 h
    have h2 : onPoolWith (calculate_lp_issuance_stable amp now) s a1 a2
        slippage now = some (s1, lp, r1, r2) := h
    obtain ⟨ha1, ha2, hA1, hA2, hcalc, hlppos, hr1, hr2, hs1eq, hrb⟩ :=
      onPoolWith_empty_inversion (calculate_lp_issuance_stable amp now)
        s a1 a2 slippage now s1 lp r1 r2 hb1 hb2 h2
    unfold calculate_lp_issuance_stable at hcalc
    simp [hb1, hb2, Option.bind_eq_some, u64add_eq_some] at hcalc
    obtain ⟨A, hA, x, ⟨hxle, hxeq⟩, y, ⟨hyle, hyeq⟩, hD⟩ := hcalc
    subst hxeq
    subst hyeq
    exact ⟨hlppos, A, hA, hD⟩
  refine ⟨main, ?_⟩
  intro A hA hD0
  cases hres : on_stable_pool amp s a1 a2 slippage now with
  | none => rfl
  | some r =>
    obtain ⟨s1, lp, r1, r2⟩ := r
    obtain ⟨hpos, A2, hA2, hD⟩ := main s1 lp r1 r2 hres
    rw [hA] at hA2
    injection hA2 with hAA
    subst hAA
    rw [hD0] at hD
    injection hD with hD2
    omega

/-- Witness for stable_pool_empty_issuance: depositing one million of each
asset at flat amplification factor 1000000 issues compute_D = 2000000. -/
theorem stable_pool_empty_issuance_witness :
    0 < 2000000 ∧ ∃ A, get_amplification_factor ampFlat 5 = some A ∧
      compute_D 1000000 1000000 A = some 2000000 :=
  (stable_pool_empty_issuance ampFlat emptyPoolState 1000000 1000000 10000 5
    rfl rfl).1 stablePoolAfterDeposit 2000000 0 0 (by decide)


/-- Shifting the convergence test one step along the iteration. -/
theorem convAt_succ {x y A d d1 : Nat}
    (hs : computeD_step x y A d = some d1) (k : Nat) :
    convAt x y A d (k + 1) = convAt x y A d1 k := by
  unfold convAt
  have hit : computeD_iter x y A (k + 1) d = computeD_iter x y A k d1 := by
    simp [computeD_iter, hs]
  rw [hit]

/-- The compute_D loop fails when no round within the fuel meets the
convergence tolerance (including when some round panics). -/
theorem computeD_loop_eq_none (x y A : Nat) :
    ∀ fuel d, (∀ k, k < fuel → convAt x y A d k = false) →
      computeD_loop x y A fuel d = none := by
  intro fuel
  induction fuel with
  | zero =>
    intro d h
    rfl
  | succ f ih =>
    intro d h
    have h0 := h 0 (Nat.succ_pos f)
    cases hs : computeD_step x y A d with
    | none => simp [computeD_loop, hs]
    | some d1 =>
      have htol : tolOK d d1 = false := by
        unfold convAt at h0
        simp [computeD_iter, hs] at h0
        exact h0
      simp [computeD_loop, hs, htol]
      exact ih d1 (fun k hk => by
        rw [← convAt_succ hs k]
        exact h (k + 1) (by omega))

/-- The compute_D loop returns the estimate of the first round that meets
the convergence tolerance. -/
theorem computeD_loop_eq_of_first_conv (x y A : Nat) :
    ∀ k fuel d, k < fuel → convAt x y A d k = true →
      (∀ j, j < k → convAt x y A d j = false) →
      ∃ d1, computeD_iter x y A (k + 1) d = some d1 ∧
        computeD_loop x y A fuel d
          = (if d1 ≤ U64MAX then some d1 else none) := by
  intro k
  induction k with
  | zero =>
    intro fuel d hk hconv hmin
    unfold convAt at hconv
    simp [computeD_iter] at hconv
    cases hs : computeD_step x y A d with
    | none =>
      rw [hs] at hconv
      simp at hconv
    | some d1 =>
      rw [hs] at hconv
      simp at hconv
      cases fuel with
      | zero => omega
      | succ f =>
        refine ⟨d1, by simp [computeD_iter, hs], ?_⟩
        simp [computeD_loop, hs, hconv]
  | succ k ih =>
    intro fuel d hk hconv hmin
    have h0 : convAt x y A d 0 = false := hmin 0 (Nat.succ_pos k)
    cases hs : computeD_step x y A d with
    | none =>
      exfalso
      unfold convAt at hconv
      simp [computeD_iter, hs] at hconv
    | some d1 =>
      have htol : tolOK d d1 = false := by
        unfold convAt at h0
        simp [computeD_iter, hs] at h0
        exact h0
      cases fuel with
      | zero => omega
      | succ f =>
        have hconv1 : convAt x y A d1 k = true := by
          rw [← convAt_succ hs k]
          exact hconv
        have hmin1 : ∀ j, j < k → convAt x y A d1 j = false := by
          intro j hj
          rw [← convAt_succ hs j]
          exact hmin (j + 1) (by omega)
        obtain ⟨d2, hiter, hloop⟩ := ih f d1 (by omega) hconv1 hmin1
        refine ⟨d2, ?_, ?_⟩
        · simp [computeD_iter, hs]
          exact hiter
        · simp [computeD_loop, hs, htol]
          exact hloop

/-- Claim C7: compute_D returns 0 whenever x + y = 0; otherwise it iterates
from the initial estimate x + y for at most 255 rounds, returns the new
estimate of the first round whose successive estimates differ by at most
one (converted to uint64), and fails when no round within the 255 achieves
that tolerance. -/
theorem compute_D_iteration_spec (x y A : Nat) :
    (x + y = 0 → compute_D x y A = some 0) ∧
    (x + y ≤ U64MAX → x + y ≠ 0 →
      ((∀ k, k < 255 → convAt x y A (x + y) k = false) →
        compute_D x y A = none) ∧
      (∀ k, k < 255 → convAt x y A (x + y) k = true →
        (∀ j, j < k → convAt x y A (x + y) j = false) →
        ∃ d, computeD_iter x y A (k + 1) (x + y) = some d ∧
          compute_D x y A = (if d ≤ U64MAX then some d else none))) := by
  constructor
  · intro h0
    unfold compute_D
    rw [h0]
    norm_num [U64MAX]
  · intro hle hne
    constructor
    · intro hall
      unfold compute_D
      rw [if_neg (by omega), if_neg hne]
      exact computeD_loop_eq_none x y A 255 (x + y) hall
    · intro k hk hconv hmin
      obtain ⟨d, hiter, hloop⟩ :=
        computeD_loop_eq_of_first_conv x y A k 255 (x + y) hk hconv hmin
      refine ⟨d, hiter, ?_⟩
      unfold compute_D
      rw [if_neg (by omega), if_neg hne]
      exact hloop

/-- Witness for compute_D_iteration_spec: the zero case and the balanced
case (1000000, 1000000) at amplification 1000000, which converges in the
first round to 2000000. -/
theorem compute_D_iteration_spec_witness :
    compute_D 0 0 1 = some 0 ∧
    ∃ d, computeD_iter 1000000 1000000 1000000 1 (1000000 + 1000000)
        = some d ∧
      compute_D 1000000 1000000 1000000
        = (if d ≤ U64MAX then some d else none) := by
  refine ⟨(compute_D_iteration_spec 0 0 1).1 rfl, ?_⟩
  exact ((compute_D_iteration_spec 1000000 1000000 1000000).2 (by decide)
    (by decide)).2 0 (by decide) (by decide)
    (fun j hj => absurd hj (Nat.not_lt_zero j))


end AlgofiAMM
